import Mathlib

/-!
Verification development for the cleaning-machine monitoring system.

Shallow embedding of the core tracking engine:
  * `YardStatus`, `Yard` and `Yard.add_work_time` from `src/models/yard.py`
  * `Machine`, `MachineMessage` and `Machine.update_position` from
    `src/models/machine.py`
  * `process_machine_update` / `_handle_yard_change` from
    `src/services/cleaning_service.py`
  * the batch pipeline `_process_messages_batch` / `_process_single_message`
    from `main.py`

Python floats and datetimes are modelled as rationals (seconds for
timestamps); Python dicts keyed by ids are modelled as total functions with
a default (`Nat → ℚ` defaulting to 0 for the per-machine dwell history,
`Nat → Option Yard` for the yard directory and machine store).
-/

namespace CleaningSystem

/-- The six discrete cleaning-progress bands (`YardStatus` enum in
`src/models/yard.py`). -/
inductive YardStatus where
  | PERCENT_0
  | PERCENT_20
  | PERCENT_40
  | PERCENT_60
  | PERCENT_80
  | PERCENT_100
deriving DecidableEq, Repr

/-- Numeric value of a band (the enum member's value in the source). -/
def YardStatus.value : YardStatus → Nat
  | .PERCENT_0 => 0
  | .PERCENT_20 => 20
  | .PERCENT_40 => 40
  | .PERCENT_60 => 60
  | .PERCENT_80 => 80
  | .PERCENT_100 => 100

/-- `YardStatus.get_status_by_percentage` from `src/models/yard.py`:
top-down band lookup, higher bands win ties. -/
def YardStatus.get_status_by_percentage (percentage : ℚ) : YardStatus :=
  if percentage ≥ 100 then .PERCENT_100
  else if percentage ≥ 80 then .PERCENT_80
  else if percentage ≥ 60 then .PERCENT_60
  else if percentage ≥ 40 then .PERCENT_40
  else if percentage ≥ 20 then .PERCENT_20
  else .PERCENT_0

/-- The `Yard` class state (`src/models/yard.py`). `area` and
`cleaning_speed` are set at construction; the Python constructor raises
unless they are positive, which theorems carry as hypotheses. -/
structure Yard where
  yard_id : Nat
  area : ℚ
  cleaning_speed : ℚ
  status : YardStatus
  cleaned_area : ℚ
  total_work_time : ℚ
  status_history : List YardStatus
deriving DecidableEq, Repr

/-- `Yard.__init__`: zero progress, status band 0, history `[0]`. -/
def mkYard (yard_id : Nat) (area cleaning_speed : ℚ) : Yard :=
  { yard_id := yard_id
    area := area
    cleaning_speed := cleaning_speed
    status := .PERCENT_0
    cleaned_area := 0
    total_work_time := 0
    status_history := [.PERCENT_0] }

/-- `Yard.get_completion_percentage`: `min(cleaned_area/area*100, 100)`,
with a 0 guard for non-positive area. -/
def Yard.get_completion_percentage (y : Yard) : ℚ :=
  if y.area ≤ 0 then 0 else min (y.cleaned_area / y.area * 100) 100

/-- `Yard.add_work_time`: rejects non-positive work time; accrues total
work time and cleaned area (clamped to `area`); requantizes the band and,
on a band change, appends it to the history and returns it. -/
def Yard.add_work_time (y : Yard) (work_time : ℚ) : Yard × Option YardStatus :=
  if work_time ≤ 0 then (y, none)
  else
    let cleaned0 := y.cleaned_area + work_time * y.cleaning_speed
    let cleaned1 := if cleaned0 > y.area then y.area else cleaned0
    let y1 : Yard :=
      { y with total_work_time := y.total_work_time + work_time
               cleaned_area := cleaned1 }
    let new_status := YardStatus.get_status_by_percentage y1.get_completion_percentage
    if new_status ≠ y1.status then
      ({ y1 with status := new_status
                 status_history := y1.status_history ++ [new_status] },
       some new_status)
    else
      (y1, none)

/-- A telemetry report (`MachineMessage` in `src/models/machine.py`);
timestamps in seconds, coordinates as a pair of rationals. -/
structure MachineMessage where
  machine_id : Nat
  timestamp : ℚ
  coordinates : ℚ × ℚ
  yard_id : Option Nat
deriving DecidableEq, Repr

/-- The `Machine` class state (`src/models/machine.py`). The per-yard
dwell history dict is a total function defaulting to 0, matching
`yard_work_history.get(yard_id, 0.0)`. -/
structure Machine where
  machine_id : Nat
  current_coordinates : ℚ × ℚ
  last_update : Option ℚ
  current_yard_id : Option Nat
  previous_yard_id : Option Nat
  yard_work_history : Nat → ℚ
  _yard_entry_time : Option ℚ

/-- `Machine.__init__`: origin position, no yard, empty history. -/
def mkMachine (machine_id : Nat) : Machine :=
  { machine_id := machine_id
    current_coordinates := (0, 0)
    last_update := none
    current_yard_id := none
    previous_yard_id := none
    yard_work_history := fun _ => 0
    _yard_entry_time := none }

/-- `Machine._calculate_work_time`: delta between timestamps, discarded as
0 when the start is absent, negative, or above 3600 seconds. -/
def _calculate_work_time (start_time : Option ℚ) (end_time : ℚ) : ℚ :=
  match start_time with
  | none => 0
  | some s =>
    let seconds := end_time - s
    if seconds < 0 ∨ seconds > 3600 then 0 else seconds

/-- `Machine._add_work_time`: adds dwell seconds to the per-yard history
(missing keys behave as 0). -/
def Machine._add_work_time (m : Machine) (yard_id : Nat) (work_time : ℚ) : Machine :=
  { m with yard_work_history := fun y =>
      if y = yard_id then m.yard_work_history y + work_time
      else m.yard_work_history y }

/-- The change descriptor returned by `Machine.update_position`. -/
structure Changes where
  position_changed : Bool
  yard_changed : Bool
  entered_yard : Option Nat
  left_yard : Option Nat
  work_time_added : ℚ
deriving DecidableEq, Repr

/-- `Machine.update_position`: sets position; on a yard change credits the
elapsed dwell to the outgoing yard (when an entry time was recorded) and
switches membership; on an unchanged in-yard report credits dwell to the
current yard; unconditionally sets `last_update` to the report time. -/
def Machine.update_position (m0 : Machine) (message : MachineMessage) :
    Machine × Changes :=
  let position_changed := decide (m0.current_coordinates ≠ message.coordinates)
  let m1 : Machine := { m0 with current_coordinates := message.coordinates }
  if m1.current_yard_id ≠ message.yard_id then
    let entry_time := match message.yard_id with
      | some _ => some message.timestamp
      | none => none
    match m1.current_yard_id, m1._yard_entry_time with
    | some cy, some _ =>
      let work_time := _calculate_work_time m1.last_update message.timestamp
      if work_time > 0 then
        ({ m1._add_work_time cy work_time with
             previous_yard_id := m1.current_yard_id
             current_yard_id := message.yard_id
             _yard_entry_time := entry_time
             last_update := some message.timestamp },
         ⟨position_changed, true, message.yard_id, some cy, work_time⟩)
      else
        ({ m1 with previous_yard_id := m1.current_yard_id
                   current_yard_id := message.yard_id
                   _yard_entry_time := entry_time
                   last_update := some message.timestamp },
         ⟨position_changed, true, message.yard_id, none, 0⟩)
    | _, _ =>
      ({ m1 with previous_yard_id := m1.current_yard_id
                 current_yard_id := message.yard_id
                 _yard_entry_time := entry_time
                 last_update := some message.timestamp },
       ⟨position_changed, true, message.yard_id, none, 0⟩)
  else
    match m1.current_yard_id, m1.last_update, m1._yard_entry_time with
    | some cy, some _, some _ =>
      let work_time := _calculate_work_time m1.last_update message.timestamp
      if work_time > 0 then
        ({ m1._add_work_time cy work_time with
             last_update := some message.timestamp },
         ⟨position_changed, false, none, none, work_time⟩)
      else
        ({ m1 with last_update := some message.timestamp },
         ⟨position_changed, false, none, none, 0⟩)
    | _, _, _ =>
      ({ m1 with last_update := some message.timestamp },
       ⟨position_changed, false, none, none, 0⟩)

/-- The yard directory (`self.yards` dict in `main.py`). -/
def Yards : Type := Nat → Option Yard

/-- A progress-band transition event as returned by the service. -/
structure StatusChange where
  yard_id : Nat
  old_status : YardStatus
  new_status : YardStatus
  timestamp : ℚ
  machine_id : Nat
  work_time_added : ℚ
deriving DecidableEq, Repr

/-- `CleaningService._handle_yard_change`: when the machine left a yard
that exists in the directory with positive credited dwell, accrues it there
and reports a band change if one happened. The entered-yard branch of the
source only logs and mutates nothing. -/
def _handle_yard_change (machine : Machine) (changes : Changes)
    (yards : Yards) (timestamp : ℚ) : Yards × Option StatusChange :=
  match changes.left_yard with
  | some left_yard_id =>
    match yards left_yard_id with
    | some yard =>
      if changes.work_time_added > 0 then
        let old_status := yard.status
        let r := yard.add_work_time changes.work_time_added
        let yards1 : Yards := fun i =>
          if i = left_yard_id then some r.1 else yards i
        match r.2 with
        | some new_status =>
          (yards1, some ⟨yard.yard_id, old_status, new_status, timestamp,
                         machine.machine_id, changes.work_time_added⟩)
        | none => (yards1, none)
      else (yards, none)
    | none => (yards, none)
  | none => (yards, none)

/-- `CleaningService.process_machine_update`: applies the report to the
machine, then either handles a yard change or accrues in-yard dwell to the
current yard when it exists in the directory. -/
def process_machine_update (machine : Machine) (message : MachineMessage)
    (yards : Yards) : Machine × Yards × Option StatusChange :=
  let r := machine.update_position message
  let m1 := r.1
  let changes := r.2
  if changes.yard_changed then
    let hr := _handle_yard_change m1 changes yards message.timestamp
    (m1, hr.1, hr.2)
  else
    match m1.current_yard_id with
    | some cy =>
      if changes.work_time_added > 0 then
        match yards cy with
        | some yard =>
          let old_status := yard.status
          let ar := yard.add_work_time changes.work_time_added
          let yards1 : Yards := fun i => if i = cy then some ar.1 else yards i
          match ar.2 with
          | some new_status =>
            (m1, yards1, some ⟨yard.yard_id, old_status, new_status,
                               message.timestamp, m1.machine_id,
                               changes.work_time_added⟩)
          | none => (m1, yards1, none)
        | none => (m1, yards, none)
      else (m1, yards, none)
    | none => (m1, yards, none)

/-- The batch pipeline's mutable state in `main.py`: machine store, yard
directory and the collected transition events. -/
structure SystemState where
  machines : Nat → Option Machine
  yards : Yards
  status_changes : List StatusChange

/-- Fresh stores over a given yard directory (`CleaningMonitoringSystem`
construction plus `load_yard_directory`). -/
def initState (yards : Yards) : SystemState :=
  { machines := fun _ => none, yards := yards, status_changes := [] }

/-- `CleaningMonitoringSystem._process_single_message`: get-or-create the
machine, run the service update, collect any transition event. -/
def _process_single_message (st : SystemState) (message : MachineMessage) :
    SystemState :=
  let machine := match st.machines message.machine_id with
    | some m => m
    | none => mkMachine message.machine_id
  let r := process_machine_update machine message st.yards
  { machines := fun i =>
      if i = message.machine_id then some r.1 else st.machines i
    yards := r.2.1
    status_changes := match r.2.2 with
      | some sc => st.status_changes ++ [sc]
      | none => st.status_changes }

/-- `CleaningMonitoringSystem._process_messages_batch`: fold the single
message processor over the sorted report list. -/
def _process_messages_batch (st : SystemState)
    (messages : List MachineMessage) : SystemState :=
  messages.foldl _process_single_message st

/-- Iterated `Yard.add_work_time`, keeping only the yard. -/
def applyWorks (y : Yard) (ws : List ℚ) : Yard :=
  ws.foldl (fun a w => (a.add_work_time w).1) y

/-- Number of band transitions observed over a sequence of accruals. -/
def countTransitions (y : Yard) (ws : List ℚ) : Nat :=
  match ws with
  | [] => 0
  | w :: rest =>
    let r := y.add_work_time w
    (if r.2.isSome then 1 else 0) + countTransitions r.1 rest

/-- Iterated `Machine.update_position`, keeping only the machine. -/
def applyMsgs (m : Machine) (messages : List MachineMessage) : Machine :=
  messages.foldl (fun a msg => (a.update_position msg).1) m

/-- Invariant bundle for a `Yard` as maintained by construction and
`add_work_time`: positive immutable parameters, cleaned area within
`[0, area]`, stored status consistent with the quantization of the current
completion percentage, and a status history that starts at band 0, is
strictly increasing in band value, and ends at the current status. -/
structure YardGood (y : Yard) : Prop where
  area_pos : 0 < y.area
  speed_pos : 0 < y.cleaning_speed
  cleaned_nonneg : 0 ≤ y.cleaned_area
  cleaned_le : y.cleaned_area ≤ y.area
  status_eq : y.status = YardStatus.get_status_by_percentage y.get_completion_percentage
  hist_head : y.status_history.head? = some YardStatus.PERCENT_0
  hist_chain : y.status_history.Chain' (fun a b => a.value < b.value)
  hist_last : y.status_history.getLast? = some y.status

/-- Invariant bundle for a `Machine`: the yard entry time is recorded
exactly when the machine is in a yard, and accumulated dwell is
non-negative for every yard id. -/
def MachineInv (m : Machine) : Prop :=
  m._yard_entry_time.isSome = m.current_yard_id.isSome ∧
  ∀ yid : Nat, 0 ≤ m.yard_work_history yid

end CleaningSystem
namespace CleaningSystem

theorem YardStatus.value_inj {a b : YardStatus} (h : a.value = b.value) : a = b := by
  cases a <;> cases b <;> simp_all [YardStatus.value]

theorem get_status_by_percentage_mono {p q : ℚ} (h : p ≤ q) :
    (YardStatus.get_status_by_percentage p).value ≤
      (YardStatus.get_status_by_percentage q).value := by
  unfold YardStatus.get_status_by_percentage
  split_ifs <;> simp [YardStatus.value] <;> linarith

theorem get_completion_percentage_mono {y z : Yard} (harea : y.area = z.area)
    (hpos : 0 < z.area) (h : y.cleaned_area ≤ z.cleaned_area) :
    y.get_completion_percentage ≤ z.get_completion_percentage := by
  unfold Yard.get_completion_percentage
  rw [harea, if_neg (by linarith), if_neg (by linarith)]
  exact min_le_min (by gcongr) le_rfl

theorem get_status_by_percentage_zero :
    YardStatus.get_status_by_percentage 0 = .PERCENT_0 := by
  norm_num [YardStatus.get_status_by_percentage]

theorem mkYard_good (yard_id : Nat) (area cleaning_speed : ℚ)
    (ha : 0 < area) (hs : 0 < cleaning_speed) :
    YardGood (mkYard yard_id area cleaning_speed) := by
  have hpct : (mkYard yard_id area cleaning_speed).get_completion_percentage = 0 := by
    simp [mkYard, Yard.get_completion_percentage, not_le.mpr ha]
  exact ⟨ha, hs, le_refl 0, le_of_lt ha,
    by rw [hpct, get_status_by_percentage_zero]; rfl, rfl,
    List.chain'_singleton _, rfl⟩

end CleaningSystem
namespace CleaningSystem

theorem add_work_time_area (y : Yard) (w : ℚ) :
    (y.add_work_time w).1.area = y.area := by
  simp only [Yard.add_work_time]
  split_ifs <;> rfl

theorem add_work_time_speed (y : Yard) (w : ℚ) :
    (y.add_work_time w).1.cleaning_speed = y.cleaning_speed := by
  simp only [Yard.add_work_time]
  split_ifs <;> rfl

theorem add_work_time_yard_id (y : Yard) (w : ℚ) :
    (y.add_work_time w).1.yard_id = y.yard_id := by
  simp only [Yard.add_work_time]
  split_ifs <;> rfl

theorem add_work_time_total (y : Yard) (w : ℚ) :
    y.total_work_time ≤ (y.add_work_time w).1.total_work_time := by
  simp only [Yard.add_work_time]
  split_ifs <;> simp <;> linarith

theorem add_work_time_cleaned_mono (y : Yard) (w : ℚ)
    (hs : 0 ≤ y.cleaning_speed) (hle : y.cleaned_area ≤ y.area) :
    y.cleaned_area ≤ (y.add_work_time w).1.cleaned_area := by
  simp only [Yard.add_work_time]
  split_ifs <;> simp <;> nlinarith

theorem add_work_time_cleaned_le (y : Yard) (w : ℚ)
    (hle : y.cleaned_area ≤ y.area) :
    (y.add_work_time w).1.cleaned_area ≤ y.area := by
  simp only [Yard.add_work_time]
  split_ifs <;> simp <;> linarith

theorem add_work_time_cleaned_nonneg (y : Yard) (w : ℚ)
    (h0 : 0 ≤ y.cleaned_area) (ha : 0 ≤ y.area) (hs : 0 ≤ y.cleaning_speed) :
    0 ≤ (y.add_work_time w).1.cleaned_area := by
  simp only [Yard.add_work_time]
  split_ifs <;> simp <;> nlinarith

end CleaningSystem
namespace CleaningSystem

theorem add_work_time_status_eq (y : Yard) (w : ℚ)
    (hst : y.status = YardStatus.get_status_by_percentage y.get_completion_percentage) :
    (y.add_work_time w).1.status =
      YardStatus.get_status_by_percentage (y.add_work_time w).1.get_completion_percentage := by
  simp only [Yard.add_work_time]
  split_ifs <;> simp_all [Yard.get_completion_percentage]

theorem add_work_time_hist (y : Yard) (w : ℚ) :
    ((y.add_work_time w).2 = none ∧ (y.add_work_time w).1.status = y.status ∧
      (y.add_work_time w).1.status_history = y.status_history) ∨
    ((y.add_work_time w).2 = some ((y.add_work_time w).1.status) ∧
      (y.add_work_time w).1.status ≠ y.status ∧
      (y.add_work_time w).1.status_history
        = y.status_history ++ [(y.add_work_time w).1.status]) := by
  simp only [Yard.add_work_time]
  split_ifs <;> simp_all

theorem add_work_time_value_mono (y : Yard) (w : ℚ)
    (ha : 0 < y.area) (hs : 0 ≤ y.cleaning_speed) (hle : y.cleaned_area ≤ y.area)
    (hst : y.status = YardStatus.get_status_by_percentage y.get_completion_percentage) :
    y.status.value ≤ ((y.add_work_time w).1.status).value := by
  have hpos : 0 < (y.add_work_time w).1.area := by rw [add_work_time_area]; exact ha
  have hpct := get_completion_percentage_mono (add_work_time_area y w).symm hpos
    (add_work_time_cleaned_mono y w hs hle)
  rw [hst, add_work_time_status_eq y w hst]
  exact get_status_by_percentage_mono hpct

theorem add_work_time_good (y : Yard) (w : ℚ) (hg : YardGood y) :
    YardGood (y.add_work_time w).1 := by
  obtain ⟨ha, hs, h0, hle, hst, hhd, hch, hlast⟩ := hg
  have harea := add_work_time_area y w
  have hspeed := add_work_time_speed y w
  refine ⟨harea ▸ ha, hspeed ▸ hs,
    add_work_time_cleaned_nonneg y w h0 (le_of_lt ha) (le_of_lt hs),
    harea ▸ add_work_time_cleaned_le y w hle,
    add_work_time_status_eq y w
      (by exact hst), ?_, ?_, ?_⟩ <;>
  rcases add_work_time_hist y w with ⟨hn, hstat, hh⟩ | ⟨hsm, hne, hh⟩
  · rw [hh]; exact hhd
  · rw [hh, List.head?_append_of_ne_nil]
    · exact hhd
    · intro hnil; rw [hnil] at hhd; simp at hhd
  · rw [hh]; exact hch
  · rw [hh, List.chain'_append]
    refine ⟨hch, List.chain'_singleton _, ?_⟩
    intro x hx z hz
    simp only [List.head?_cons, Option.mem_def, Option.some.injEq] at hz
    rw [hlast] at hx
    simp only [Option.mem_def, Option.some.injEq] at hx
    subst hx hz
    have hmono := add_work_time_value_mono y w ha (le_of_lt hs) hle hst
    rcases lt_or_eq_of_le hmono with h | h
    · exact h
    · exact absurd (YardStatus.value_inj h.symm) hne
  · rw [hh, hstat]; exact hlast
  · rw [hh, List.getLast?_concat]
end CleaningSystem
namespace CleaningSystem

theorem add_work_time_hist_length (y : Yard) (w : ℚ) :
    (y.add_work_time w).1.status_history.length
      = y.status_history.length + (if (y.add_work_time w).2.isSome then 1 else 0) := by
  rcases add_work_time_hist y w with ⟨hn, _, hh⟩ | ⟨hsm, _, hh⟩
  · simp [hn, hh]
  · simp [hsm, hh]

theorem applyWorks_props (ws : List ℚ) : ∀ y : Yard, YardGood y →
    YardGood (applyWorks y ws) ∧
    y.cleaned_area ≤ (applyWorks y ws).cleaned_area ∧
    y.total_work_time ≤ (applyWorks y ws).total_work_time ∧
    (applyWorks y ws).area = y.area ∧
    (applyWorks y ws).cleaning_speed = y.cleaning_speed ∧
    (applyWorks y ws).status_history.length
      = y.status_history.length + countTransitions y ws := by
  induction ws with
  | nil =>
    intro y hg
    refine ⟨hg, le_refl _, le_refl _, rfl, rfl, ?_⟩
    simp [applyWorks, countTransitions]
  | cons w rest ih =>
    intro y hg
    have hgood := add_work_time_good y w hg
    obtain ⟨g, c, t, a, s, l⟩ := ih (y.add_work_time w).1 hgood
    have hw : applyWorks y (w :: rest) = applyWorks (y.add_work_time w).1 rest := by
      simp [applyWorks]
    have hct : countTransitions y (w :: rest)
        = (if (y.add_work_time w).2.isSome then 1 else 0)
          + countTransitions (y.add_work_time w).1 rest := rfl
    refine ⟨hw ▸ g, ?_, ?_, ?_, ?_, ?_⟩
    · rw [hw]
      exact le_trans (add_work_time_cleaned_mono y w (le_of_lt hg.speed_pos) hg.cleaned_le) c
    · rw [hw]
      exact le_trans (add_work_time_total y w) t
    · rw [hw, a, add_work_time_area]
    · rw [hw, s, add_work_time_speed]
    · rw [hw, l, add_work_time_hist_length, hct]
      cases h : (y.add_work_time w).2.isSome <;> simp [h, Nat.add_assoc]

theorem applyWorks_append (y : Yard) (l1 l2 : List ℚ) :
    applyWorks y (l1 ++ l2) = applyWorks (applyWorks y l1) l2 := by
  simp [applyWorks]

theorem applyWorks_take_succ (y : Yard) (ws : List ℚ) (n : Nat) :
    applyWorks y (ws.take (n + 1))
      = match ws[n]? with
        | some w => ((applyWorks y (ws.take n)).add_work_time w).1
        | none => applyWorks y (ws.take n) := by
  rw [List.take_succ, applyWorks_append]
  cases h : ws[n]? <;> simp [h, applyWorks]

end CleaningSystem
namespace CleaningSystem

theorem calculate_work_time_nonneg (s : Option ℚ) (t : ℚ) :
    0 ≤ _calculate_work_time s t := by
  unfold _calculate_work_time
  cases s with
  | none => exact le_refl 0
  | some v =>
    simp only
    split_ifs with h
    · exact le_refl 0
    · push_neg at h
      linarith [h.1]

theorem work_time_added_eq (m : Machine) (msg : MachineMessage) :
    ((m.update_position msg).2).work_time_added =
      match m.current_yard_id, m._yard_entry_time with
      | some _, some _ => _calculate_work_time m.last_update msg.timestamp
      | _, _ => 0 := by
  simp only [Machine.update_position]
  rcases hcy : m.current_yard_id with _ | cy <;>
    rcases het : m._yard_entry_time with _ | et <;>
    rcases hlu : m.last_update with _ | lu <;>
    rcases hmy : msg.yard_id with _ | my <;>
    simp_all [_calculate_work_time] <;>
    split_ifs <;>
    simp_all <;>
    linarith

end CleaningSystem
namespace CleaningSystem

theorem work_time_added_nonneg (m : Machine) (msg : MachineMessage) :
    0 ≤ ((m.update_position msg).2).work_time_added := by
  rw [work_time_added_eq]
  rcases m.current_yard_id with _ | cy <;> rcases m._yard_entry_time with _ | et <;>
    first
      | exact le_refl 0
      | exact calculate_work_time_nonneg m.last_update msg.timestamp

theorem update_position_frame (m : Machine) (msg : MachineMessage) :
    ((m.update_position msg).1).current_coordinates = msg.coordinates ∧
    ((m.update_position msg).1).last_update = some msg.timestamp ∧
    ((m.update_position msg).1).machine_id = m.machine_id := by
  simp only [Machine.update_position]
  rcases hcy : m.current_yard_id with _ | cy <;>
    rcases het : m._yard_entry_time with _ | et <;>
    rcases hlu : m.last_update with _ | lu <;>
    rcases hmy : msg.yard_id with _ | my <;>
    simp_all [Machine._add_work_time] <;>
    split_ifs <;>
    simp_all

theorem update_position_current (m : Machine) (msg : MachineMessage) :
    ((m.update_position msg).1).current_yard_id = msg.yard_id := by
  simp only [Machine.update_position]
  rcases hcy : m.current_yard_id with _ | cy <;>
    rcases het : m._yard_entry_time with _ | et <;>
    rcases hlu : m.last_update with _ | lu <;>
    rcases hmy : msg.yard_id with _ | my <;>
    simp_all [Machine._add_work_time] <;>
    split_ifs <;>
    simp_all

theorem update_position_entry_iff (m : Machine) (msg : MachineMessage)
    (h : m._yard_entry_time.isSome = m.current_yard_id.isSome) :
    ((m.update_position msg).1)._yard_entry_time.isSome
      = ((m.update_position msg).1).current_yard_id.isSome := by
  simp only [Machine.update_position]
  rcases hcy : m.current_yard_id with _ | cy <;>
    rcases het : m._yard_entry_time with _ | et <;>
    rcases hlu : m.last_update with _ | lu <;>
    rcases hmy : msg.yard_id with _ | my <;>
    simp_all [Machine._add_work_time] <;>
    split_ifs <;>
    simp_all

theorem update_position_hist (m : Machine) (msg : MachineMessage) (yy : Nat) :
    ((m.update_position msg).1).yard_work_history yy =
      if m.current_yard_id = some yy
      then m.yard_work_history yy + ((m.update_position msg).2).work_time_added
      else m.yard_work_history yy := by
  simp only [Machine.update_position]
  rcases hcy : m.current_yard_id with _ | cy <;>
    rcases het : m._yard_entry_time with _ | et <;>
    rcases hlu : m.last_update with _ | lu <;>
    rcases hmy : msg.yard_id with _ | my <;>
    simp_all [Machine._add_work_time] <;>
    split_ifs <;>
    simp_all [_calculate_work_time] <;>
    first
      | linarith
      | (intro h1; subst h1; simp_all)

theorem left_yard_spec (m : Machine) (msg : MachineMessage) (l : Nat)
    (h : ((m.update_position msg).2).left_yard = some l) :
    m.current_yard_id = some l ∧ m.current_yard_id ≠ msg.yard_id ∧
    ((m.update_position msg).2).yard_changed = true := by
  revert h
  simp only [Machine.update_position]
  rcases hcy : m.current_yard_id with _ | cy <;>
    rcases het : m._yard_entry_time with _ | et <;>
    rcases hlu : m.last_update with _ | lu <;>
    rcases hmy : msg.yard_id with _ | my <;>
    simp_all [Machine._add_work_time] <;>
    split_ifs <;>
    simp_all <;>
    (intro h1; subst h1; simp_all)

theorem yard_changed_spec (m : Machine) (msg : MachineMessage) :
    ((m.update_position msg).2).yard_changed = true ↔ m.current_yard_id ≠ msg.yard_id := by
  simp only [Machine.update_position]
  rcases hcy : m.current_yard_id with _ | cy <;>
    rcases het : m._yard_entry_time with _ | et <;>
    rcases hlu : m.last_update with _ | lu <;>
    rcases hmy : msg.yard_id with _ | my <;>
    simp_all [Machine._add_work_time] <;>
    split_ifs <;>
    simp_all

end CleaningSystem
namespace CleaningSystem

theorem update_position_inv (m : Machine) (msg : MachineMessage) (h : MachineInv m) :
    MachineInv (m.update_position msg).1 := by
  obtain ⟨he, hh⟩ := h
  refine ⟨update_position_entry_iff m msg he, ?_⟩
  intro yid
  rw [update_position_hist]
  split_ifs
  · have := work_time_added_nonneg m msg
    have := hh yid
    linarith
  · exact hh yid

theorem update_position_hist_mono (m : Machine) (msg : MachineMessage) (yid : Nat) :
    m.yard_work_history yid ≤ ((m.update_position msg).1).yard_work_history yid := by
  rw [update_position_hist]
  split_ifs
  · linarith [work_time_added_nonneg m msg]
  · exact le_refl _

theorem mkMachine_inv (machine_id : Nat) : MachineInv (mkMachine machine_id) :=
  ⟨rfl, fun _ => le_refl 0⟩

theorem applyMsgs_inv (messages : List MachineMessage) : ∀ m : Machine, MachineInv m →
    MachineInv (applyMsgs m messages) := by
  induction messages with
  | nil => intro m h; exact h
  | cons msg rest ih =>
    intro m h
    have hstep : applyMsgs m (msg :: rest) = applyMsgs ((m.update_position msg).1) rest := by
      simp [applyMsgs]
    rw [hstep]
    exact ih _ (update_position_inv m msg h)

theorem applyMsgs_append (m : Machine) (l1 l2 : List MachineMessage) :
    applyMsgs m (l1 ++ l2) = applyMsgs (applyMsgs m l1) l2 := by
  simp [applyMsgs]

theorem applyMsgs_take_succ (m : Machine) (messages : List MachineMessage) (n : Nat) :
    applyMsgs m (messages.take (n + 1))
      = match messages[n]? with
        | some msg => ((applyMsgs m (messages.take n)).update_position msg).1
        | none => applyMsgs m (messages.take n) := by
  rw [List.take_succ, applyMsgs_append]
  cases h : messages[n]? <;> simp [h, applyMsgs]

theorem process_machine_component (machine : Machine) (msg : MachineMessage)
    (yards : Yards) :
    (process_machine_update machine msg yards).1 = (machine.update_position msg).1 := by
  simp only [process_machine_update, _handle_yard_change]
  repeat' split
  all_goals rfl

end CleaningSystem
namespace CleaningSystem

theorem process_eq_changed (machine : Machine) (msg : MachineMessage) (yards : Yards)
    (hch : ((machine.update_position msg).2).yard_changed = true) :
    process_machine_update machine msg yards =
      ((machine.update_position msg).1,
       _handle_yard_change (machine.update_position msg).1
         (machine.update_position msg).2 yards msg.timestamp) := by
  simp [process_machine_update, hch]

theorem process_eq_unchanged (machine : Machine) (msg : MachineMessage) (yards : Yards)
    (cy : Nat)
    (hch : ((machine.update_position msg).2).yard_changed = false)
    (hcy : ((machine.update_position msg).1).current_yard_id = some cy)
    (hun : yards cy = none) :
    process_machine_update machine msg yards
      = ((machine.update_position msg).1, yards, none) := by
  simp only [process_machine_update, hch, hcy, hun]
  split_ifs <;> simp_all

theorem handle_none (machine : Machine) (changes : Changes) (yards : Yards)
    (timestamp : ℚ) (h : changes.left_yard = none) :
    _handle_yard_change machine changes yards timestamp = (yards, none) := by
  simp [_handle_yard_change, h]

theorem handle_some_unknown (machine : Machine) (changes : Changes) (yards : Yards)
    (timestamp : ℚ) (l : Nat) (h : changes.left_yard = some l) (hy : yards l = none) :
    _handle_yard_change machine changes yards timestamp = (yards, none) := by
  simp [_handle_yard_change, h, hy]

theorem handle_some_nowt (machine : Machine) (changes : Changes) (yards : Yards)
    (timestamp : ℚ) (l : Nat) (h : changes.left_yard = some l)
    (hwt : ¬ changes.work_time_added > 0) :
    _handle_yard_change machine changes yards timestamp = (yards, none) := by
  cases hy : yards l <;> simp [_handle_yard_change, h, hy, hwt]

theorem handle_some_known (machine : Machine) (changes : Changes) (yards : Yards)
    (timestamp : ℚ) (l : Nat) (yard : Yard)
    (h : changes.left_yard = some l) (hy : yards l = some yard)
    (hwt : changes.work_time_added > 0) :
    _handle_yard_change machine changes yards timestamp =
      ((fun i => if i = l then some (yard.add_work_time changes.work_time_added).1
                 else yards i),
       match (yard.add_work_time changes.work_time_added).2 with
       | some ns => some ⟨yard.yard_id, yard.status, ns, timestamp,
                          machine.machine_id, changes.work_time_added⟩
       | none => none) := by
  cases hr : (yard.add_work_time changes.work_time_added).2 <;>
    simp [_handle_yard_change, h, hy, hwt, hr]

end CleaningSystem
namespace CleaningSystem

/-- C1: the dwell credit computed by `Machine.update_position` is zero when
`last_update` is absent or the delta is negative or above 3600 seconds, and
equals the delta when `last_update` is present, the delta is within
`[0, 3600]` and the machine is in a yard (with the entry-time invariant the
tracker maintains). -/
theorem dwell_credit_rule (m : Machine) (msg : MachineMessage)
    (hinv : m._yard_entry_time.isSome = m.current_yard_id.isSome) :
    (m.last_update = none → ((m.update_position msg).2).work_time_added = 0) ∧
    (∀ lu, m.last_update = some lu →
      (msg.timestamp - lu < 0 ∨ msg.timestamp - lu > 3600) →
      ((m.update_position msg).2).work_time_added = 0) ∧
    (∀ lu cy, m.last_update = some lu → m.current_yard_id = some cy →
      0 ≤ msg.timestamp - lu → msg.timestamp - lu ≤ 3600 →
      ((m.update_position msg).2).work_time_added = msg.timestamp - lu) := by
  refine ⟨?_, ?_, ?_⟩
  · intro hlu
    rw [work_time_added_eq]
    rcases m.current_yard_id with _ | cy <;> rcases m._yard_entry_time with _ | et <;>
      simp_all [_calculate_work_time]
  · intro lu hlu hbad
    rw [work_time_added_eq]
    rcases m.current_yard_id with _ | cy <;> rcases m._yard_entry_time with _ | et <;>
      simp_all [_calculate_work_time]
  · intro lu cy hlu hcy h0 h36
    rw [work_time_added_eq]
    have hsome : m._yard_entry_time.isSome := by rw [hinv, hcy]; rfl
    obtain ⟨et, het⟩ := Option.isSome_iff_exists.mp hsome
    simp only [hcy, het, hlu, _calculate_work_time]
    rw [if_neg]
    push_neg
    exact ⟨by linarith, by linarith⟩

/-- Witness for C1: a machine in yard 1 that last reported at `t = 0` and
reports again at `t = 5000` in the same yard is credited 0 seconds. -/
theorem dwell_credit_rule_witness :
    ((({ machine_id := 2, current_coordinates := (0, 0), last_update := some 0,
          current_yard_id := some 1, previous_yard_id := none,
          yard_work_history := fun _ => 0, _yard_entry_time := some 0 } : Machine).update_position
        ⟨2, 5000, (1, 1), some 1⟩).2).work_time_added = 0 :=
  (dwell_credit_rule _ _ rfl).2.1 0 rfl (Or.inr (by norm_num))

/-- C3: the band-for-percentage function maps every percentage to exactly
one of the six bands with higher bands winning ties, and in particular
79 percent gives band 60, 80 gives band 80 and 100 gives band 100. -/
theorem quantization_rule (p : ℚ) :
    (YardStatus.get_status_by_percentage p = .PERCENT_100 ↔ 100 ≤ p) ∧
    (YardStatus.get_status_by_percentage p = .PERCENT_80 ↔ 80 ≤ p ∧ p < 100) ∧
    (YardStatus.get_status_by_percentage p = .PERCENT_60 ↔ 60 ≤ p ∧ p < 80) ∧
    (YardStatus.get_status_by_percentage p = .PERCENT_40 ↔ 40 ≤ p ∧ p < 60) ∧
    (YardStatus.get_status_by_percentage p = .PERCENT_20 ↔ 20 ≤ p ∧ p < 40) ∧
    (YardStatus.get_status_by_percentage p = .PERCENT_0 ↔ p < 20) ∧
    YardStatus.get_status_by_percentage 79 = .PERCENT_60 ∧
    YardStatus.get_status_by_percentage 80 = .PERCENT_80 ∧
    YardStatus.get_status_by_percentage 100 = .PERCENT_100 := by
  have h79 : YardStatus.get_status_by_percentage 79 = .PERCENT_60 := by
    norm_num [YardStatus.get_status_by_percentage]
  have h80 : YardStatus.get_status_by_percentage 80 = .PERCENT_80 := by
    norm_num [YardStatus.get_status_by_percentage]
  have h100 : YardStatus.get_status_by_percentage 100 = .PERCENT_100 := by
    norm_num [YardStatus.get_status_by_percentage]
  refine ⟨?_, ?_, ?_, ?_, ?_, ?_, h79, h80, h100⟩ <;>
    clear h79 h80 h100 <;>
    (unfold YardStatus.get_status_by_percentage; split_ifs with h1 h2 h3 h4 h5) <;>
    simp_all <;>
    first
      | linarith
      | (intro ha; linarith)

/-- C6: `update_position` unconditionally sets the position to the
report's coordinates and `last_update` to the report's timestamp, and never
changes the machine id. -/
theorem position_updated_unconditionally (m : Machine) (msg : MachineMessage) :
    ((m.update_position msg).1).current_coordinates = msg.coordinates ∧
    ((m.update_position msg).1).last_update = some msg.timestamp ∧
    ((m.update_position msg).1).machine_id = m.machine_id := by
  simp only [Machine.update_position]
  rcases hcy : m.current_yard_id with _ | cy <;>
    rcases het : m._yard_entry_time with _ | et <;>
    rcases hlu : m.last_update with _ | lu <;>
    rcases hmy : msg.yard_id with _ | my <;>
    simp_all [Machine._add_work_time] <;>
    split_ifs <;>
    simp_all

/-- C9: the batch pipeline is a pure function of the initial yard
directory and the sorted report list, so two runs from fresh stores agree
on the final machine store, yard store and transition-event sequence. -/
theorem batch_deterministic (yards0 : Yards) (messages : List MachineMessage) :
    (_process_messages_batch (initState yards0) messages).machines
      = (_process_messages_batch (initState yards0) messages).machines ∧
    (_process_messages_batch (initState yards0) messages).yards
      = (_process_messages_batch (initState yards0) messages).yards ∧
    (_process_messages_batch (initState yards0) messages).status_changes
      = (_process_messages_batch (initState yards0) messages).status_changes :=
  ⟨rfl, rfl, rfl⟩

end CleaningSystem
namespace CleaningSystem

/-- C2: for a Yard created with positive area and cleaning rate, over any
sequence of `add_work_time` calls the cleaned area starts at 0, never
decreases from one call to the next, stays within `[0, area]`, and the
total work time never decreases. -/
theorem yard_creditWork_bounds (yard_id : Nat) (area cleaning_speed : ℚ)
    (ha : 0 < area) (hs : 0 < cleaning_speed) (ws : List ℚ) (n : Nat) :
    (mkYard yard_id area cleaning_speed).cleaned_area = 0 ∧
    (applyWorks (mkYard yard_id area cleaning_speed) (ws.take n)).cleaned_area
      ≤ (applyWorks (mkYard yard_id area cleaning_speed) (ws.take (n + 1))).cleaned_area ∧
    0 ≤ (applyWorks (mkYard yard_id area cleaning_speed) (ws.take n)).cleaned_area ∧
    (applyWorks (mkYard yard_id area cleaning_speed) (ws.take n)).cleaned_area ≤ area ∧
    (applyWorks (mkYard yard_id area cleaning_speed) (ws.take n)).total_work_time
      ≤ (applyWorks (mkYard yard_id area cleaning_speed) (ws.take (n + 1))).total_work_time := by
  obtain ⟨g, _, _, harea, _, _⟩ :=
    applyWorks_props (ws.take n) _ (mkYard_good yard_id area cleaning_speed ha hs)
  refine ⟨rfl, ?_, g.cleaned_nonneg, ?_, ?_⟩
  · rw [applyWorks_take_succ]
    cases h : ws[n]? with
    | none => exact le_refl _
    | some w => exact add_work_time_cleaned_mono _ w (le_of_lt g.speed_pos) g.cleaned_le
  · have hle := g.cleaned_le
    rw [harea] at hle
    exact hle
  · rw [applyWorks_take_succ]
    cases h : ws[n]? with
    | none => exact le_refl _
    | some w => exact add_work_time_total _ w

/-- Witness for C2 at a concrete yard (area 2, rate 1) and work list. -/
theorem yard_creditWork_bounds_witness :
    (0 : ℚ) < 2 ∧ (0 : ℚ) < 1 ∧
    ((mkYard 1 2 1).cleaned_area = 0 ∧
      (applyWorks (mkYard 1 2 1) (([1, 5] : List ℚ).take 0)).cleaned_area
        ≤ (applyWorks (mkYard 1 2 1) (([1, 5] : List ℚ).take (0 + 1))).cleaned_area ∧
      0 ≤ (applyWorks (mkYard 1 2 1) (([1, 5] : List ℚ).take 0)).cleaned_area ∧
      (applyWorks (mkYard 1 2 1) (([1, 5] : List ℚ).take 0)).cleaned_area ≤ 2 ∧
      (applyWorks (mkYard 1 2 1) (([1, 5] : List ℚ).take 0)).total_work_time
        ≤ (applyWorks (mkYard 1 2 1) (([1, 5] : List ℚ).take (0 + 1))).total_work_time) :=
  ⟨by norm_num, by norm_num,
    yard_creditWork_bounds 1 2 1 (by norm_num) (by norm_num) [1, 5] 0⟩

/-- C4: after any sequence of `add_work_time` calls the stored status
equals the band of the current completion percentage; the status history
starts at band 0, is strictly increasing in band value, ends at the
current status, and has length (observed transitions + 1). -/
theorem yard_status_consistency (yard_id : Nat) (area cleaning_speed : ℚ)
    (ha : 0 < area) (hs : 0 < cleaning_speed) (ws : List ℚ) :
    (applyWorks (mkYard yard_id area cleaning_speed) ws).status
      = YardStatus.get_status_by_percentage
          (applyWorks (mkYard yard_id area cleaning_speed) ws).get_completion_percentage ∧
    (applyWorks (mkYard yard_id area cleaning_speed) ws).status_history.head?
      = some YardStatus.PERCENT_0 ∧
    (applyWorks (mkYard yard_id area cleaning_speed) ws).status_history.Chain'
      (fun a b => a.value < b.value) ∧
    (applyWorks (mkYard yard_id area cleaning_speed) ws).status_history.getLast?
      = some (applyWorks (mkYard yard_id area cleaning_speed) ws).status ∧
    (applyWorks (mkYard yard_id area cleaning_speed) ws).status_history.length
      = countTransitions (mkYard yard_id area cleaning_speed) ws + 1 := by
  obtain ⟨g, _, _, _, _, hlen⟩ :=
    applyWorks_props ws _ (mkYard_good yard_id area cleaning_speed ha hs)
  refine ⟨g.status_eq, g.hist_head, g.hist_chain, g.hist_last, ?_⟩
  rw [hlen]
  simp [mkYard, Nat.add_comm]

/-- Witness for C4 at a concrete yard (area 100, rate 1) and work list. -/
theorem yard_status_consistency_witness :
    (0 : ℚ) < 100 ∧ (0 : ℚ) < 1 ∧
    ((applyWorks (mkYard 3 100 1) [30, 50]).status
      = YardStatus.get_status_by_percentage
          (applyWorks (mkYard 3 100 1) [30, 50]).get_completion_percentage ∧
    (applyWorks (mkYard 3 100 1) [30, 50]).status_history.head?
      = some YardStatus.PERCENT_0 ∧
    (applyWorks (mkYard 3 100 1) [30, 50]).status_history.Chain'
      (fun a b => a.value < b.value) ∧
    (applyWorks (mkYard 3 100 1) [30, 50]).status_history.getLast?
      = some (applyWorks (mkYard 3 100 1) [30, 50]).status ∧
    (applyWorks (mkYard 3 100 1) [30, 50]).status_history.length
      = countTransitions (mkYard 3 100 1) [30, 50] + 1) :=
  ⟨by norm_num, by norm_num,
    yard_status_consistency 3 100 1 (by norm_num) (by norm_num) [30, 50]⟩

/-- C7: starting from a fresh machine, after any number of
`update_position` calls the entry time is recorded exactly when the
machine is in a yard, and every per-yard dwell value is non-negative and
never decreases from one call to the next. -/
theorem machine_tracker_invariant (machine_id : Nat)
    (messages : List MachineMessage) (n : Nat) (yid : Nat) :
    ((applyMsgs (mkMachine machine_id) (messages.take n))._yard_entry_time.isSome
      = (applyMsgs (mkMachine machine_id) (messages.take n)).current_yard_id.isSome) ∧
    0 ≤ (applyMsgs (mkMachine machine_id) (messages.take n)).yard_work_history yid ∧
    (applyMsgs (mkMachine machine_id) (messages.take n)).yard_work_history yid
      ≤ (applyMsgs (mkMachine machine_id) (messages.take (n + 1))).yard_work_history yid := by
  have hinv := applyMsgs_inv (messages.take n) (mkMachine machine_id) (mkMachine_inv machine_id)
  refine ⟨hinv.1, hinv.2 yid, ?_⟩
  rw [applyMsgs_take_succ]
  cases h : messages[n]? with
  | none => exact le_refl _
  | some msg => exact update_position_hist_mono _ msg yid

end CleaningSystem
namespace CleaningSystem

/-- C5: worked example. For a yard directory holding yard 1 with area 100
and rate 1, a fresh machine that enters yard 1 at `t = 0` gets no
transition event; its leave report (`yard_id = none`) at `t = 120` credits
120 seconds to the outgoing yard, which clamps the cleaned area at 100 and
emits exactly one transition event from band 0 to band 100. -/
theorem worked_example_enter_leave :
    (process_machine_update (mkMachine 1) ⟨1, 0, (0, 0), some 1⟩
      (fun i => if i = 1 then some (mkYard 1 100 1) else none)).2.2 = none ∧
    (process_machine_update
      (process_machine_update (mkMachine 1) ⟨1, 0, (0, 0), some 1⟩
        (fun i => if i = 1 then some (mkYard 1 100 1) else none)).1
      ⟨1, 120, (5, 5), none⟩
      (process_machine_update (mkMachine 1) ⟨1, 0, (0, 0), some 1⟩
        (fun i => if i = 1 then some (mkYard 1 100 1) else none)).2.1).2.2 =
      some ⟨1, .PERCENT_0, .PERCENT_100, 120, 1, 120⟩ ∧
    ((process_machine_update
      (process_machine_update (mkMachine 1) ⟨1, 0, (0, 0), some 1⟩
        (fun i => if i = 1 then some (mkYard 1 100 1) else none)).1
      ⟨1, 120, (5, 5), none⟩
      (process_machine_update (mkMachine 1) ⟨1, 0, (0, 0), some 1⟩
        (fun i => if i = 1 then some (mkYard 1 100 1) else none)).2.1).2.1 1).map
        Yard.cleaned_area = some 100 ∧
    ((process_machine_update
      (process_machine_update (mkMachine 1) ⟨1, 0, (0, 0), some 1⟩
        (fun i => if i = 1 then some (mkYard 1 100 1) else none)).1
      ⟨1, 120, (5, 5), none⟩
      (process_machine_update (mkMachine 1) ⟨1, 0, (0, 0), some 1⟩
        (fun i => if i = 1 then some (mkYard 1 100 1) else none)).2.1).2.1 1).map
        Yard.total_work_time = some 120 := by
  refine ⟨?_, ?_, ?_, ?_⟩ <;>
    (simp +decide only [process_machine_update, Machine.update_position,
      _handle_yard_change, _calculate_work_time, Machine._add_work_time,
      Yard.add_work_time, Yard.get_completion_percentage,
      YardStatus.get_status_by_percentage, mkMachine, mkYard]) <;>
    (try norm_num) <;>
    (try simp)

end CleaningSystem
namespace CleaningSystem

/-- C8: a report referencing a yard id absent from the directory is
tolerated: the machine is still updated exactly as `update_position`
prescribes, the unknown yard stays absent, any directory entry that
changes is a known yard that was just left, and no returned transition
event references the unknown yard. -/
theorem unknown_yard_tolerated (machine : Machine) (msg : MachineMessage)
    (yards : Yards) (yid : Nat)
    (hmsg : msg.yard_id = some yid) (hyd : yards yid = none)
    (hkeys : ∀ i y, yards i = some y → y.yard_id = i) :
    (process_machine_update machine msg yards).1 = (machine.update_position msg).1 ∧
    (process_machine_update machine msg yards).2.1 yid = none ∧
    (∀ i, (process_machine_update machine msg yards).2.1 i ≠ yards i →
      ((machine.update_position msg).2).left_yard = some i ∧ (yards i).isSome = true) ∧
    (∀ e, (process_machine_update machine msg yards).2.2 = some e → e.yard_id ≠ yid) := by
  refine ⟨process_machine_component machine msg yards, ?_⟩
  by_cases hch : ((machine.update_position msg).2).yard_changed = true
  · rw [process_eq_changed machine msg yards hch]
    rcases hl : ((machine.update_position msg).2).left_yard with _ | l
    · rw [handle_none _ _ _ _ hl]
      exact ⟨hyd, fun i hi => absurd rfl hi, fun e he => by simp at he⟩
    · obtain ⟨hcyl, hne, _⟩ := left_yard_spec machine msg l hl
      have hlne : l ≠ yid := fun hcontra => hne (by rw [hcyl, hcontra, hmsg])
      rcases hy : yards l with _ | yard
      · rw [handle_some_unknown _ _ _ _ l hl hy]
        exact ⟨hyd, fun i hi => absurd rfl hi, fun e he => by simp at he⟩
      · by_cases hwt : ((machine.update_position msg).2).work_time_added > 0
        · rw [handle_some_known _ _ _ _ l yard hl hy hwt]
          refine ⟨?_, ?_, ?_⟩
          · show (if yid = l
                then some (yard.add_work_time
                  ((machine.update_position msg).2).work_time_added).1
                else yards yid) = none
            rw [if_neg (fun hcontra => hlne hcontra.symm)]
            exact hyd
          · intro i hi
            by_cases hil : i = l
            · subst hil
              exact ⟨rfl, by rw [hy]; rfl⟩
            · refine absurd ?_ hi
              show (if i = l
                  then some (yard.add_work_time
                    ((machine.update_position msg).2).work_time_added).1
                  else yards i) = yards i
              rw [if_neg hil]
          · intro e he
            rcases hr : ((yard.add_work_time
                ((machine.update_position msg).2).work_time_added).2) with _ | ns
            · rw [hr] at he
              simp at he
            · rw [hr] at he
              simp only [Option.some.injEq] at he
              rw [← he]
              show yard.yard_id ≠ yid
              rw [hkeys l yard hy]
              exact hlne
        · rw [handle_some_nowt _ _ _ _ l hl hwt]
          exact ⟨hyd, fun i hi => absurd rfl hi, fun e he => by simp at he⟩
  · have hch' : ((machine.update_position msg).2).yard_changed = false := by
      cases h : ((machine.update_position msg).2).yard_changed
      · rfl
      · exact absurd h hch
    have hcur : ((machine.update_position msg).1).current_yard_id = some yid := by
      rw [update_position_current, hmsg]
    rw [process_eq_unchanged machine msg yards yid hch' hcur hyd]
    exact ⟨hyd, fun i hi => absurd rfl hi, fun e he => by simp at he⟩

end CleaningSystem
namespace CleaningSystem

/-- Witness for C8: a machine leaves known yard 1 for unknown yard 2; the
report is processed, yard 2 stays absent, only yard 1 (just left) may
change, and no event references yard 2. -/
theorem unknown_yard_tolerated_witness :
    ((⟨3, 10, (2, 2), some 2⟩ : MachineMessage).yard_id = some 2) ∧
    ((fun i => if i = 1 then some (mkYard 1 100 1) else none : Yards) 2 = none) ∧
    ((process_machine_update
        ({ machine_id := 3, current_coordinates := (0, 0), last_update := some 0,
           current_yard_id := some 1, previous_yard_id := none,
           yard_work_history := fun _ => 0, _yard_entry_time := some 0 } : Machine)
        ⟨3, 10, (2, 2), some 2⟩
        (fun i => if i = 1 then some (mkYard 1 100 1) else none)).1
      = (({ machine_id := 3, current_coordinates := (0, 0), last_update := some 0,
            current_yard_id := some 1, previous_yard_id := none,
            yard_work_history := fun _ => 0, _yard_entry_time := some 0 } : Machine).update_position
          ⟨3, 10, (2, 2), some 2⟩).1 ∧
    (process_machine_update
        ({ machine_id := 3, current_coordinates := (0, 0), last_update := some 0,
           current_yard_id := some 1, previous_yard_id := none,
           yard_work_history := fun _ => 0, _yard_entry_time := some 0 } : Machine)
        ⟨3, 10, (2, 2), some 2⟩
        (fun i => if i = 1 then some (mkYard 1 100 1) else none)).2.1 2 = none ∧
    (∀ i, (process_machine_update
        ({ machine_id := 3, current_coordinates := (0, 0), last_update := some 0,
           current_yard_id := some 1, previous_yard_id := none,
           yard_work_history := fun _ => 0, _yard_entry_time := some 0 } : Machine)
        ⟨3, 10, (2, 2), some 2⟩
        (fun i => if i = 1 then some (mkYard 1 100 1) else none)).2.1 i
          ≠ (fun i => if i = 1 then some (mkYard 1 100 1) else none : Yards) i →
      ((({ machine_id := 3, current_coordinates := (0, 0), last_update := some 0,
           current_yard_id := some 1, previous_yard_id := none,
           yard_work_history := fun _ => 0, _yard_entry_time := some 0 } : Machine).update_position
          ⟨3, 10, (2, 2), some 2⟩).2).left_yard = some i ∧
        ((fun i => if i = 1 then some (mkYard 1 100 1) else none : Yards) i).isSome = true) ∧
    (∀ e, (process_machine_update
        ({ machine_id := 3, current_coordinates := (0, 0), last_update := some 0,
           current_yard_id := some 1, previous_yard_id := none,
           yard_work_history := fun _ => 0, _yard_entry_time := some 0 } : Machine)
        ⟨3, 10, (2, 2), some 2⟩
        (fun i => if i = 1 then some (mkYard 1 100 1) else none)).2.2 = some e →
      e.yard_id ≠ 2)) :=
  ⟨rfl, rfl,
    unknown_yard_tolerated _ _ _ 2 rfl rfl (by
      intro i y h
      by_cases hi : i = 1
      · subst hi
        simp at h
        subst h
        rfl
      · rw [if_neg hi] at h
        exact absurd h (by simp))⟩

/-- C10: when `update_position` credits positive dwell, it lands in the
machine's own per-yard history under the yard the machine was in, even
when that yard id is absent from the directory; the yard directory is left
untouched and no event is returned, so the machine can carry positive
dwell for a yard that does not exist. -/
theorem machine_dwell_directory_independent (machine : Machine)
    (msg : MachineMessage) (yards : Yards) (cy : Nat)
    (hcy : machine.current_yard_id = some cy)
    (hun : yards cy = none)
    (hwt : 0 < ((machine.update_position msg).2).work_time_added) :
    ((process_machine_update machine msg yards).1).yard_work_history cy
      = machine.yard_work_history cy
        + ((machine.update_position msg).2).work_time_added ∧
    machine.yard_work_history cy
      < ((process_machine_update machine msg yards).1).yard_work_history cy ∧
    (∀ j, (process_machine_update machine msg yards).2.1 j = yards j) ∧
    (process_machine_update machine msg yards).2.2 = none := by
  have h1 : ((process_machine_update machine msg yards).1).yard_work_history cy
      = machine.yard_work_history cy
        + ((machine.update_position msg).2).work_time_added := by
    rw [process_machine_component, update_position_hist, if_pos hcy]
  refine ⟨h1, by rw [h1]; linarith, ?_⟩
  by_cases hch : ((machine.update_position msg).2).yard_changed = true
  · rw [process_eq_changed machine msg yards hch]
    rcases hl : ((machine.update_position msg).2).left_yard with _ | l
    · rw [handle_none _ _ _ _ hl]
      exact ⟨fun j => rfl, rfl⟩
    · have hcyl := (left_yard_spec machine msg l hl).1
      have hlcy : l = cy := by
        rw [hcy] at hcyl
        injection hcyl with h
        exact h.symm
      subst hlcy
      rw [handle_some_unknown _ _ _ _ l hl hun]
      exact ⟨fun j => rfl, rfl⟩
  · have hch' : ((machine.update_position msg).2).yard_changed = false := by
      cases h : ((machine.update_position msg).2).yard_changed
      · rfl
      · exact absurd h hch
    have heq : machine.current_yard_id = msg.yard_id := by
      by_contra hne
      exact hch ((yard_changed_spec machine msg).mpr hne)
    have hcur : ((machine.update_position msg).1).current_yard_id = some cy := by
      rw [update_position_current, ← heq, hcy]
    rw [process_eq_unchanged machine msg yards cy hch' hcur hun]
    exact ⟨fun j => rfl, rfl⟩

/-- Witness for C10: a machine dwelling in yard 5, which is absent from an
empty directory, still accrues its 50 seconds of dwell in its own history
while the directory and event stream are untouched. -/
theorem machine_dwell_directory_independent_witness :
    (({ machine_id := 4, current_coordinates := (0, 0), last_update := some 0,
        current_yard_id := some 5, previous_yard_id := none,
        yard_work_history := fun _ => 0, _yard_entry_time := some 0 } : Machine).current_yard_id
      = some 5) ∧
    ((fun _ => none : Yards) 5 = none) ∧
    (((process_machine_update
        ({ machine_id := 4, current_coordinates := (0, 0), last_update := some 0,
           current_yard_id := some 5, previous_yard_id := none,
           yard_work_history := fun _ => 0, _yard_entry_time := some 0 } : Machine)
        ⟨4, 50, (1, 1), some 5⟩ (fun _ => none)).1).yard_work_history 5
      = ({ machine_id := 4, current_coordinates := (0, 0), last_update := some 0,
           current_yard_id := some 5, previous_yard_id := none,
           yard_work_history := fun _ => 0, _yard_entry_time := some 0 } : Machine).yard_work_history 5
        + ((({ machine_id := 4, current_coordinates := (0, 0), last_update := some 0,
               current_yard_id := some 5, previous_yard_id := none,
               yard_work_history := fun _ => 0, _yard_entry_time := some 0 } : Machine).update_position
            ⟨4, 50, (1, 1), some 5⟩).2).work_time_added ∧
    ({ machine_id := 4, current_coordinates := (0, 0), last_update := some 0,
       current_yard_id := some 5, previous_yard_id := none,
       yard_work_history := fun _ => 0, _yard_entry_time := some 0 } : Machine).yard_work_history 5
      < ((process_machine_update
        ({ machine_id := 4, current_coordinates := (0, 0), last_update := some 0,
           current_yard_id := some 5, previous_yard_id := none,
           yard_work_history := fun _ => 0, _yard_entry_time := some 0 } : Machine)
        ⟨4, 50, (1, 1), some 5⟩ (fun _ => none)).1).yard_work_history 5 ∧
    (∀ j, (process_machine_update
        ({ machine_id := 4, current_coordinates := (0, 0), last_update := some 0,
           current_yard_id := some 5, previous_yard_id := none,
           yard_work_history := fun _ => 0, _yard_entry_time := some 0 } : Machine)
        ⟨4, 50, (1, 1), some 5⟩ (fun _ => none)).2.1 j = (fun _ => none : Yards) j) ∧
    (process_machine_update
        ({ machine_id := 4, current_coordinates := (0, 0), last_update := some 0,
           current_yard_id := some 5, previous_yard_id := none,
           yard_work_history := fun _ => 0, _yard_entry_time := some 0 } : Machine)
        ⟨4, 50, (1, 1), some 5⟩ (fun _ => none)).2.2 = none) :=
  ⟨rfl, rfl,
    machine_dwell_directory_independent _ _ _ 5 rfl rfl (by
      simp +decide only [Machine.update_position, _calculate_work_time,
        Machine._add_work_time]
      norm_num)⟩

end CleaningSystem
